import Mathlib

/-!
Shallow embedding of the `ibnsina` HTTP router (Go) — the path-pattern
matcher, route registration, middleware composition and the dispatcher
(`Router.ServeHTTP`), translated from the repository source.

Modelling notes:
* Go's per-request `context.Context` is modelled as an association list of
  string key/value pairs; `context.WithValue` prepends, and lookup returns
  the most recently added binding, exactly as shadowing works in Go.
* The global regex cache `rxPatterns` maps a regex source string to a
  compiled matcher whose `MatchString` method is UNANCHORED (Go `regexp`:
  it reports whether the string CONTAINS any match).  The development is
  parametric in a function `rxMatch : String → String → Bool` standing for
  `fun rx s => rxPatterns[rx].MatchString(s)`.  For concrete evaluation we
  instantiate it with Go's semantics restricted to regexes that are plain
  literal text (no metacharacters): such a regex matches a string iff it
  occurs in it as a substring.
* The `Values` record (trace id, start time) that `ServeHTTP` stores under
  the separate key type `contextKey(1)` is not retrievable through `Param`
  (which uses key type `ctxKey`) and no claim mentions it, so it is not
  modelled; the trace-id response header is modelled with the generated
  uuid passed in as a parameter.
* `http.ResponseWriter` is modelled as a `Response` state record (status,
  accumulated body, headers); a handler is a state transformer on it.
-/

/-- A Go `context.Context` restricted to the router's string-keyed values:
`context.WithValue` conses, lookup takes the newest binding. -/
abbrev Ctx := List (String × String)

/-- Go `context.WithValue(ctx, ctxKey(k), v)`. -/
def withValue (ctx : Ctx) (k v : String) : Ctx :=
  (k, v) :: ctx

/-- `Param(ctx, name)`: the bound value, or `""` when unbound (the failed
type assertion branch in the source). -/
def Param (ctx : Ctx) (name : String) : String :=
  match ctx.find? (fun p => p.1 == name) with
  | some p => p.2
  | none => ""

/-- An HTTP request: method, escaped path, and its attached context
(`request.Context()` / `request.WithContext`). -/
structure Request where
  method : String
  path : String
  ctx : Ctx

/-- The observable state of an `http.ResponseWriter`: status code written
by `WriteHeader`, body accumulated by `Write`, and response headers. -/
structure Response where
  status : Nat
  body : String
  headers : List (String × String)

/-- `response.Header().Set(k, v)`: replaces any previous value of `k`. -/
def Response.setHeader (res : Response) (k v : String) : Response :=
  { res with headers := (k, v) :: res.headers.filter (fun p => p.1 != k) }

/-- Read back a response header (for stating properties). -/
def Response.getHeader (res : Response) (k : String) : Option String :=
  (res.headers.find? (fun p => p.1 == k)).map (fun p => p.2)

/-- `type Handler func(context.Context, http.ResponseWriter, *http.Request)`:
the first argument is the `ctx` parameter, the request carries its own
context, and the response is threaded as state. -/
abbrev Handler := Ctx → Request → Response → Response

/-- `type Middleware func(Handler) Handler`. -/
abbrev Middleware := Handler → Handler

/-- `defaultNotFound`: 404 with a fixed body. -/
def defaultNotFound : Handler := fun _ _ res =>
  { res with status := 404,
             body := res.body ++ "the requested resource could not be found\n" }

/-- `defaultMethodNotAllowed`: 405, body naming the rejected method. -/
def defaultMethodNotAllowed : Handler := fun _ req res =>
  { res with status := 405,
             body := res.body ++ "the method " ++ req.method ++
               " is not supported for the requested resource\n" }

/-- `defaultOptions`: 204 No Content, writes no body. -/
def defaultOptions : Handler := fun _ _ res =>
  { res with status := 204 }

/-- `allMethods`, in source order. -/
def allMethods : List String :=
  ["GET", "HEAD", "POST", "PUT", "PATCH", "DELETE", "CONNECT", "OPTIONS", "TRACE"]

/-- `const TraceIDHeader = "X-Trace-ID"`. -/
def TraceIDHeader : String := "X-Trace-ID"

/-- `strings.Split(s, sep)` for a one-character separator, on the
character list: splitting the empty string yields `[[]]`, i.e. `[""]`,
exactly as Go does. -/
def splitOnChar (c : Char) : List Char → List (List Char)
  | [] => [[]]
  | x :: xs =>
    let r := splitOnChar c xs
    if x == c then [] :: r
    else
      match r with
      | [] => [[x]]
      | y :: ys => (x :: y) :: ys

/-- `strings.Split(s, sep)` for a one-character separator `sep`. -/
def goSplit (s : String) (c : Char) : List String :=
  (splitOnChar c s.data).map (fun l => ⟨l⟩)

/-- `strings.HasPrefix(s, pre)`. -/
def goHasPre (pre s : String) : Bool :=
  pre.data.isPrefixOf s.data

/-- `strings.HasSuffix(s, suf)`. -/
def goHasSuf (suf s : String) : Bool :=
  suf.data.isSuffixOf s.data

/-- `strings.ToUpper(s)` (all method strings involved are ASCII). -/
def goToUpper (s : String) : String :=
  ⟨s.data.map Char.toUpper⟩

/-- `strings.TrimPrefix(s, ":")`: drops a leading `":"` when present. -/
def trimColon (s : String) : String :=
  if goHasPre ":" s then ⟨s.data.drop 1⟩ else s

/-- `strings.Cut(s, "|")`: splits around the first `"|"`, third component
reports whether one was found. -/
def cutBar (s : String) : String × String × Bool :=
  match goSplit s '|' with
  | [] => (s, "", false)
  | [x] => (x, "", false)
  | x :: rest => (x, String.intercalate "|" rest, true)

/-- Go `regexp` semantics restricted to regexes that are literal text (no
metacharacters): `MatchString` is unanchored, so a literal regex `rx`
matches `s` iff `rx` occurs in `s` as a substring. -/
def literalMatchString (rx s : String) : Bool :=
  decide (rx.data <:+: s.data)

/-- A full-string match of a literal regex, as the spec describes it:
the regex must match the ENTIRE segment. -/
def literalFullMatch (rx s : String) : Bool :=
  rx == s

/-- `type route struct { method; segments; wildcard; handler }`. -/
structure route where
  method : String
  segments : List String
  wildcard : Bool
  handler : Handler

/-- The body of the `for index, rs := range route.segments` loop in
`route.match`, one constructor step per pattern segment.  `rxMatch rx s`
stands for `rxPatterns[rx].MatchString(s)`.  The Go bounds test
`index > len(segments)-1` (over integers) is `segments.length ≤ index`. -/
def matchFrom (rxMatch : String → String → Bool) (segments : List String) :
    List String → Nat → Ctx → Ctx × Bool
  | [], _, ctx => (ctx, true)
  | rs :: rest, index, ctx =>
    if segments.length ≤ index then (ctx, false)
    else if rs == "..." then
      (withValue ctx "..." (String.intercalate "/" (segments.drop index)), true)
    else if goHasPre ":" rs then
      match cutBar (trimColon rs) with
      | (key, rx, true) =>
        if rxMatch rx (segments.getD index "") then
          matchFrom rxMatch segments rest (index + 1)
            (withValue ctx key (segments.getD index ""))
        else (ctx, false)
      | (key, _, false) =>
        if segments.getD index "" != "" then
          matchFrom rxMatch segments rest (index + 1)
            (withValue ctx key (segments.getD index ""))
        else (ctx, false)
    else if rs == segments.getD index "" then
      matchFrom rxMatch segments rest (index + 1) ctx
    else (ctx, false)

/-- `func (route *route) match(ctx, segments) (context.Context, bool)`. -/
def route.matchRoute (rxMatch : String → String → Bool) (r : route)
    (segments : List String) (ctx : Ctx) : Ctx × Bool :=
  if !r.wildcard && segments.length != r.segments.length then (ctx, false)
  else matchFrom rxMatch segments r.segments 0 ctx

/-- `type Router struct`. -/
structure Router where
  NotFound : Handler
  MethodNotAllowed : Handler
  Options : Handler
  routes : List route
  middlewares : List Middleware

/-- `NewRouter(middlewares...)`. -/
def NewRouter (middlewares : List Middleware) : Router :=
  { NotFound := defaultNotFound
    MethodNotAllowed := defaultMethodNotAllowed
    Options := defaultOptions
    routes := []
    middlewares := middlewares }

/-- The `for index := len(router.middlewares) - 1; index > -1; index--`
loop of `Router.wrap`: `wrapIter ms k h` has already folded in the
middlewares with indices `k, k+1, …` and still has indices `k-1 … 0` to
apply, each wrapping OUTSIDE the handler built so far. -/
def wrapIter (ms : List Middleware) : Nat → Handler → Handler
  | 0, h => h
  | k + 1, h => wrapIter ms k (ms.getD k (fun x => x) h)

/-- `func (router *Router) wrap(handler Handler) Handler`. -/
def Router.wrap (router : Router) (h : Handler) : Handler :=
  wrapIter router.middlewares router.middlewares.length h

/-- `func (router *Router) Handle(path, handler, methods...)`.  The
mutation of the global `rxPatterns` cache (compiling each `:name|rx`
regex) only populates the table behind `rxMatch` and is not otherwise
observable, so it is not modelled as state. -/
def Router.Handle (router : Router) (path : String) (handler : Handler)
    (methods : List String) : Router :=
  let methods :=
    if methods.contains "GET" && !(methods.contains "HEAD") then
      methods ++ ["HEAD"]
    else methods
  let methods := if methods.length == 0 then allMethods else methods
  let segments := goSplit path '/'
  { router with
      routes := router.routes ++ methods.map (fun m =>
        { method := goToUpper m
          segments := segments
          wildcard := goHasSuf "/..." path
          handler := router.wrap handler }) }

/-- The scanning loop of `Router.ServeHTTP`: walk the route table in
order, collecting mismatched methods; on the first route whose pattern
matches AND whose method equals the request method, invoke its handler
(with the match context attached to the request) and stop.  After an
exhausted scan, fall through to the Allow/OPTIONS/405 negotiation or to
NotFound. -/
def serveLoop (rxMatch : String → String → Bool) (router : Router)
    (req : Request) (segments : List String) :
    List route → List String → Response → Response
  | [], methods, res =>
    if methods.length > 0 then
      let res := res.setHeader "Allow"
        (String.intercalate ", " (methods ++ ["OPTIONS"]))
      if req.method == "OPTIONS" then
        router.wrap router.Options req.ctx req res
      else
        router.wrap router.MethodNotAllowed req.ctx req res
    else
      router.wrap router.NotFound req.ctx req res
  | r :: rest, methods, res =>
    let mr := r.matchRoute rxMatch segments req.ctx
    if mr.2 then
      if req.method == r.method then
        r.handler req.ctx { req with ctx := mr.1 } res
      else
        serveLoop rxMatch router req segments rest
          (if methods.contains r.method then methods else methods ++ [r.method]) res
    else
      serveLoop rxMatch router req segments rest methods res

/-- `func (router *Router) ServeHTTP(response, request)`.  `traceID`
stands for the fresh `uuid.New()`; the unretrievable `Values` record is
not modelled (see the header comment). -/
def Router.ServeHTTP (router : Router) (rxMatch : String → String → Bool)
    (traceID : String) (req : Request) (res : Response) : Response :=
  let segments := goSplit req.path '/'
  let res := res.setHeader TraceIDHeader traceID
  serveLoop rxMatch router req segments router.routes [] res

/-- A blank response-writer state, before anything is written. -/
def emptyResponse : Response :=
  { status := 0, body := "", headers := [] }

/-- A handler that does nothing, used to populate concrete routes in
closed test statements. -/
def nopHandler : Handler := fun _ _ res => res

/-- The route `Handle` builds for pattern `/users/:id|42` (the regex is
the literal text `42`). -/
def idRoute : route :=
  { method := "GET"
    segments := goSplit "/users/:id|42" '/'
    wildcard := goHasSuf "/..." "/users/:id|42"
    handler := nopHandler }

/-- The route `Handle` builds for the wildcard pattern `/files/...`. -/
def filesRoute : route :=
  { method := "GET"
    segments := goSplit "/files/..." '/'
    wildcard := goHasSuf "/..." "/files/..."
    handler := nopHandler }

/-- The route `Handle` builds for the wildcard pattern `/p/...`. -/
def pRoute : route :=
  { method := "GET"
    segments := goSplit "/p/..." '/'
    wildcard := goHasSuf "/..." "/p/..."
    handler := nopHandler }

/-- A non-wildcard route on `/a/b`, for witness statements. -/
def abRoute : route :=
  { method := "GET"
    segments := goSplit "/a/b" '/'
    wildcard := goHasSuf "/..." "/a/b"
    handler := nopHandler }

/-- A router with pattern `/items` registered for GET and POST (the
scenario of the 405/Allow-header claim). -/
def itemsRouter : Router :=
  (NewRouter []).Handle "/items" nopHandler ["GET", "POST"]

/-- A DELETE request for `/items`. -/
def delItemsReq : Request :=
  { method := "DELETE", path := "/items", ctx := [] }

/- ------------------------------------------------------------------ -/
/- Theorems                                                            -/
/- ------------------------------------------------------------------ -/

/-- C4: the wildcard route `/files/...` matches `/files/a/b/c`, binding
the key `"..."` to the remaining segments rejoined with `/`, namely
`"a/b/c"`; and it does not match `/files`, which has no trailing
segment. -/
theorem C4_wildcard_files :
    (filesRoute.matchRoute literalMatchString (goSplit "/files/a/b/c" '/') []).2 = true ∧
    Param (filesRoute.matchRoute literalMatchString (goSplit "/files/a/b/c" '/') []).1 "..."
      = "a/b/c" ∧
    (filesRoute.matchRoute literalMatchString (goSplit "/files" '/') []).2 = false :=
  ⟨rfl, rfl, rfl⟩

/-- C10: the wildcard route `/p/...` still matches the request path
`/p/` — whose segment count equals the pattern's segment count and whose
final segment is empty — binding the key `"..."` to the empty string. -/
theorem C10_wildcard_empty_tail :
    (goSplit "/p/" '/').length = pRoute.segments.length ∧
    (pRoute.matchRoute literalMatchString (goSplit "/p/" '/') []).2 = true ∧
    Param (pRoute.matchRoute literalMatchString (goSplit "/p/" '/') []).1 "..." = "" :=
  ⟨rfl, rfl, rfl⟩

/-- C5: a non-wildcard route never matches a request path whose segment
count differs from the pattern's: the match fails immediately, leaving
the context untouched. -/
theorem C5_length_mismatch (rxMatch : String → String → Bool) (r : route)
    (segments : List String) (ctx : Ctx) (hw : r.wildcard = false)
    (hlen : segments.length ≠ r.segments.length) :
    r.matchRoute rxMatch segments ctx = (ctx, false) := by
  unfold route.matchRoute
  simp [hw, hlen]

/-- C5 witness: the `/a/b` route (3 pattern segments) against the
1-segment path `/`. -/
theorem C5_length_mismatch_witness :
    abRoute.wildcard = false ∧
    (goSplit "/" '/').length ≠ abRoute.segments.length ∧
    abRoute.matchRoute literalMatchString (goSplit "/" '/') [] = ([], false) :=
  ⟨rfl, by decide,
    C5_length_mismatch literalMatchString abRoute (goSplit "/" '/') [] rfl (by decide)⟩

/-- C1 counterexample: the route for `/users/:id|42` (regex source `42`),
matched with Go's unanchored `MatchString` semantics, DOES match the
request path `/users/142` and binds `id` to `"142"`, even though the
regex `42` does not fully match the entire segment `142`.  Binding is
therefore not conditional on a full-string match. -/
theorem C1_regex_counterexample :
    (idRoute.matchRoute literalMatchString (goSplit "/users/142" '/') []).2 = true ∧
    Param (idRoute.matchRoute literalMatchString (goSplit "/users/142" '/') []).1 "id" = "142" ∧
    literalFullMatch "42" "142" = false :=
  ⟨rfl, rfl, rfl⟩

/-- C1 (amended): at a named-parameter segment with a regex, the matcher
binds the request segment and continues exactly when the compiled regex
MATCHES the segment in Go's unanchored sense (`MatchString`: a match
anywhere within the segment); when the regex does not match at all, the
whole route match fails with the context unchanged — no fallback to
literal comparison and no partial binding. -/
theorem C1_regex_segment (rxMatch : String → String → Bool)
    (segments rest : List String) (rs key rx : String) (index : Nat) (ctx : Ctx)
    (hcolon : goHasPre ":" rs = true)
    (hcut : cutBar (trimColon rs) = (key, rx, true))
    (hidx : index < segments.length) :
    matchFrom rxMatch segments (rs :: rest) index ctx =
      if rxMatch rx (segments.getD index "") then
        matchFrom rxMatch segments rest (index + 1)
          (withValue ctx key (segments.getD index ""))
      else (ctx, false) := by
  have hne : (rs == "...") = false := by
    refine beq_eq_false_iff_ne.mpr ?_
    intro h
    subst h
    simp [goHasPre, List.isPrefixOf] at hcolon
  have h1 : ¬ (segments.length ≤ index) := Nat.not_le.mpr hidx
  simp only [matchFrom, if_neg h1, hne, Bool.false_eq_true, if_false, hcolon, if_true, hcut]

/-- C1 witness: the amended regex-segment rule applied at the concrete
segment `:id|42` against the request segment `142`. -/
theorem C1_regex_segment_witness :
    goHasPre ":" ":id|42" = true ∧
    cutBar (trimColon ":id|42") = ("id", "42", true) ∧
    0 < (["142"] : List String).length ∧
    matchFrom literalMatchString ["142"] [":id|42"] 0 [] =
      (if literalMatchString "42" ((["142"] : List String).getD 0 "") then
        matchFrom literalMatchString ["142"] [] (0 + 1)
          (withValue [] "id" ((["142"] : List String).getD 0 ""))
      else ([], false)) :=
  ⟨rfl, rfl, by decide,
    C1_regex_segment literalMatchString ["142"] [] ":id|42" "id" "42" 0 [] rfl rfl
      (by decide)⟩

/-- C6: at a named-parameter segment without a regex, an empty request
segment at that position fails the whole route match (context unchanged);
a non-empty one is bound under the parameter name and matching
continues. -/
theorem C6_param_nonempty (rxMatch : String → String → Bool)
    (segments rest : List String) (rs key : String) (index : Nat) (ctx : Ctx)
    (hcolon : goHasPre ":" rs = true)
    (hcut : cutBar (trimColon rs) = (key, "", false))
    (hidx : index < segments.length) :
    matchFrom rxMatch segments (rs :: rest) index ctx =
      if segments.getD index "" == "" then (ctx, false)
      else
        matchFrom rxMatch segments rest (index + 1)
          (withValue ctx key (segments.getD index "")) := by
  have hne : (rs == "...") = false := by
    refine beq_eq_false_iff_ne.mpr ?_
    intro h
    subst h
    simp [goHasPre, List.isPrefixOf] at hcolon
  have h1 : ¬ (segments.length ≤ index) := Nat.not_le.mpr hidx
  simp only [matchFrom, if_neg h1, hne, Bool.false_eq_true, if_false, hcolon, if_true, hcut,
    bne]
  rcases Bool.eq_false_or_eq_true (segments.getD index "" == "") with hb | hb <;>
    simp [hb]

/-- C6 witness: the parameter segment `:id` against the empty request
segment (the `/users/:id` vs `/users/` scenario). -/
theorem C6_param_nonempty_witness :
    goHasPre ":" ":id" = true ∧
    cutBar (trimColon ":id") = ("id", "", false) ∧
    0 < ([""] : List String).length ∧
    matchFrom literalMatchString [""] [":id"] 0 [] =
      (if (([""] : List String).getD 0 "" == "") then (([] : Ctx), false)
      else
        matchFrom literalMatchString [""] [] (0 + 1)
          (withValue [] "id" (([""] : List String).getD 0 ""))) :=
  ⟨rfl, rfl, by decide,
    C6_param_nonempty literalMatchString [""] [] ":id" "id" 0 [] rfl rfl (by decide)⟩

/-- The GET route `Handle` builds for pattern `/items`. -/
def getItems : route :=
  { method := "GET"
    segments := goSplit "/items" '/'
    wildcard := goHasSuf "/..." "/items"
    handler := nopHandler }

/-- The POST route `Handle` builds for pattern `/items`. -/
def postItems : route :=
  { method := "POST"
    segments := goSplit "/items" '/'
    wildcard := goHasSuf "/..." "/items"
    handler := nopHandler }

/-- A POST request for `/items`. -/
def postItemsReq : Request :=
  { method := "POST", path := "/items", ctx := [] }

/-- C3: the dispatcher's scan invokes the handler of the first route (in
registration order) whose pattern matches the path and whose method
equals the request method, with the populated match context attached to
the request; the result does not depend on any route registered after it
(no further routes are scanned), so of two overlapping routes for the
same method the first registered wins. -/
theorem C3_first_exact_match (rxMatch : String → String → Bool) (router : Router)
    (req : Request) (segments : List String) (pre : List route) (r : route)
    (rest : List route) (methods : List String) (res : Response)
    (hpre : ∀ p ∈ pre,
      (p.matchRoute rxMatch segments req.ctx).2 = false ∨ req.method ≠ p.method)
    (hok : (r.matchRoute rxMatch segments req.ctx).2 = true)
    (hm : req.method = r.method) :
    serveLoop rxMatch router req segments (pre ++ r :: rest) methods res =
      r.handler req.ctx
        { req with ctx := (r.matchRoute rxMatch segments req.ctx).1 } res := by
  induction pre generalizing methods with
  | nil =>
    simp only [List.nil_append, serveLoop]
    simp [hok, hm]
  | cons p ps ih =>
    have hp := hpre p (List.mem_cons_self p ps)
    have hps : ∀ q ∈ ps,
        (q.matchRoute rxMatch segments req.ctx).2 = false ∨ req.method ≠ q.method :=
      fun q hq => hpre q (List.mem_cons_of_mem p hq)
    simp only [List.cons_append, serveLoop]
    rcases hp with hnp | hnm
    · simp only [hnp, Bool.false_eq_true, if_false]
      exact ih _ hps
    · rcases Bool.eq_false_or_eq_true ((p.matchRoute rxMatch segments req.ctx).2) with hb | hb
      · have hmb : (req.method == p.method) = false := beq_eq_false_iff_ne.mpr hnm
        simp only [hb, hmb, Bool.false_eq_true, if_false, if_true]
        exact ih _ hps
      · simp only [hb, Bool.false_eq_true, if_false]
        exact ih _ hps

/-- C3 witness: with the GET route for `/items` registered before the
POST route, a POST request is answered by the POST route's handler. -/
theorem C3_first_exact_match_witness :
    (∀ p ∈ [getItems],
      (p.matchRoute literalMatchString (goSplit "/items" '/') postItemsReq.ctx).2 = false ∨
        postItemsReq.method ≠ p.method) ∧
    (postItems.matchRoute literalMatchString (goSplit "/items" '/') postItemsReq.ctx).2 = true ∧
    postItemsReq.method = postItems.method ∧
    serveLoop literalMatchString itemsRouter postItemsReq (goSplit "/items" '/')
        ([getItems] ++ postItems :: []) [] emptyResponse =
      postItems.handler postItemsReq.ctx
        { postItemsReq with
            ctx := (postItems.matchRoute literalMatchString (goSplit "/items" '/')
              postItemsReq.ctx).1 } emptyResponse :=
  ⟨by decide, rfl, rfl,
    C3_first_exact_match literalMatchString itemsRouter postItemsReq (goSplit "/items" '/')
      [getItems] postItems [] [] emptyResponse (by decide) rfl rfl⟩

/-- C7: `Handle(path, handler, methods...)` appends exactly one route per
effective method, all sharing the same pattern segments, the same
wildcard flag, and the same middleware-wrapped handler; if `methods`
contains GET but not HEAD, the effective methods are `methods ++ [HEAD]`;
if `methods` is empty they are the nine standard methods `allMethods`;
otherwise they are `methods` itself (uppercased). -/
theorem C7_handle_registration (router : Router) (path : String) (h : Handler)
    (methods : List String) :
    ((router.Handle path h methods).routes =
      router.routes ++ (router.Handle path h methods).routes.drop router.routes.length) ∧
    (∀ r ∈ (router.Handle path h methods).routes.drop router.routes.length,
      r.segments = goSplit path '/' ∧ r.wildcard = goHasSuf "/..." path ∧
        r.handler = router.wrap h) ∧
    (methods.contains "GET" = true → methods.contains "HEAD" = false →
      ((router.Handle path h methods).routes.drop router.routes.length).map route.method =
        (methods ++ ["HEAD"]).map goToUpper) ∧
    (methods = [] →
      ((router.Handle path h methods).routes.drop router.routes.length).map route.method =
        allMethods) ∧
    (methods ≠ [] → (methods.contains "GET" = false ∨ methods.contains "HEAD" = true) →
      ((router.Handle path h methods).routes.drop router.routes.length).map route.method =
        methods.map goToUpper) ∧
    allMethods.length = 9 := by
  refine ⟨?_, ?_, ?_, ?_, ?_, rfl⟩
  · simp [Router.Handle, List.drop_left]
  · simp only [Router.Handle, List.drop_left]
    intro r hr
    rcases List.mem_map.mp hr with ⟨m, hm, rfl⟩
    exact ⟨rfl, rfl, rfl⟩
  · intro hg hh
    simp only [Router.Handle, hg, hh, Bool.not_false, Bool.and_self, if_true, List.drop_left]
    simp [List.map_map, Function.comp]
  · intro he
    subst he
    simp only [Router.Handle, List.drop_left]
    rfl
  · intro hne hcase
    have hc : (methods.contains "GET" && !(methods.contains "HEAD")) = false := by
      rcases hcase with hc | hc <;> rw [hc] <;> simp
    have hlen : (methods.length == 0) = false := by
      simp [List.length_eq_zero, hne]
    simp only [Router.Handle, hc, Bool.false_eq_true, if_false, hlen, List.drop_left]
    simp [List.map_map, Function.comp]

/-- C7 witness: registering `/x` for GET alone yields the two routes GET
and HEAD, in that order. -/
theorem C7_handle_registration_witness :
    (["GET"] : List String).contains "GET" = true ∧
    (["GET"] : List String).contains "HEAD" = false ∧
    (((NewRouter []).Handle "/x" nopHandler ["GET"]).routes.drop
        (NewRouter []).routes.length).map route.method =
      (["GET"] ++ ["HEAD"]).map goToUpper :=
  ⟨by decide, by decide,
    (C7_handle_registration (NewRouter []) "/x" nopHandler ["GET"]).2.2.1
      (by decide) (by decide)⟩

/-- C8: when some route matches the request path but none matches the
request method, an OPTIONS request is answered by the default Options
handler with status 204 and an empty body, and any other mismatched
method is answered by the default MethodNotAllowed handler with status
405 and a body naming the rejected method (scenario: `/items` registered
for GET only, so GET and HEAD are the registered methods). -/
theorem C8_options_and_405_defaults (h : Handler) (traceID m : String)
    (hno : m ≠ "OPTIONS") (hng : m ≠ "GET") (hnh : m ≠ "HEAD") :
    ((((NewRouter []).Handle "/items" h ["GET"]).ServeHTTP literalMatchString traceID
        { method := "OPTIONS", path := "/items", ctx := [] } emptyResponse).status = 204 ∧
      (((NewRouter []).Handle "/items" h ["GET"]).ServeHTTP literalMatchString traceID
        { method := "OPTIONS", path := "/items", ctx := [] } emptyResponse).body = "") ∧
    (((NewRouter []).Handle "/items" h ["GET"]).ServeHTTP literalMatchString traceID
        { method := m, path := "/items", ctx := [] } emptyResponse).status = 405 ∧
    (((NewRouter []).Handle "/items" h ["GET"]).ServeHTTP literalMatchString traceID
        { method := m, path := "/items", ctx := [] } emptyResponse).body =
      "the method " ++ m ++ " is not supported for the requested resource\n" := by
  have hg : (m == "GET") = false := beq_eq_false_iff_ne.mpr hng
  have hh2 : (m == "HEAD") = false := beq_eq_false_iff_ne.mpr hnh
  have ho : (m == "OPTIONS") = false := beq_eq_false_iff_ne.mpr hno
  refine ⟨⟨rfl, rfl⟩, ?_, ?_⟩ <;>
    simp [Router.ServeHTTP, Router.Handle, NewRouter, serveLoop, route.matchRoute, matchFrom,
      goSplit, splitOnChar, goHasPre, goHasSuf, goToUpper, trimColon, cutBar, withValue,
      literalMatchString, Router.wrap, wrapIter, defaultMethodNotAllowed, Response.setHeader,
      emptyResponse, hg, hh2, ho]

/-- C8 witness: the default 204 and 405 responses evaluated at the
concrete mismatched method DELETE. -/
theorem C8_options_and_405_defaults_witness :
    ("DELETE" : String) ≠ "OPTIONS" ∧ ("DELETE" : String) ≠ "GET" ∧
    ("DELETE" : String) ≠ "HEAD" ∧
    (((NewRouter []).Handle "/items" nopHandler ["GET"]).ServeHTTP literalMatchString "t"
        { method := "OPTIONS", path := "/items", ctx := [] } emptyResponse).status = 204 ∧
    (((NewRouter []).Handle "/items" nopHandler ["GET"]).ServeHTTP literalMatchString "t"
        { method := "DELETE", path := "/items", ctx := [] } emptyResponse).status = 405 ∧
    (((NewRouter []).Handle "/items" nopHandler ["GET"]).ServeHTTP literalMatchString "t"
        { method := "DELETE", path := "/items", ctx := [] } emptyResponse).body =
      "the method " ++ "DELETE" ++ " is not supported for the requested resource\n" :=
  ⟨by decide, by decide, by decide,
    (C8_options_and_405_defaults nopHandler "t" "DELETE"
      (by decide) (by decide) (by decide)).1.1,
    (C8_options_and_405_defaults nopHandler "t" "DELETE"
      (by decide) (by decide) (by decide)).2.1,
    (C8_options_and_405_defaults nopHandler "t" "DELETE"
      (by decide) (by decide) (by decide)).2.2⟩

/-- C2 counterexample: in the `/items` GET+POST scenario, the `Allow`
header the code produces for `DELETE /items` lists the methods in
registration order with the auto-added HEAD last — `GET, POST, HEAD,
OPTIONS` — which differs from the claimed `GET, HEAD, POST, OPTIONS`. -/
theorem C2_allow_counterexample :
    (itemsRouter.ServeHTTP literalMatchString "t" delItemsReq emptyResponse).getHeader "Allow" =
      some "GET, POST, HEAD, OPTIONS" ∧
    ("GET, POST, HEAD, OPTIONS" : String) ≠ "GET, HEAD, POST, OPTIONS" :=
  ⟨rfl, by decide⟩

/-- C2 (amended): registering `/items` for GET and POST registers the
routes GET, POST, HEAD in that order, and a `DELETE /items` request is
answered with status 405 and the `Allow` header set to the matching
routes' methods in registration order plus OPTIONS, i.e. exactly
`GET, POST, HEAD, OPTIONS`. -/
theorem C2_allow_405 (h : Handler) (traceID : String) :
    (((NewRouter []).Handle "/items" h ["GET", "POST"]).ServeHTTP literalMatchString traceID
        delItemsReq emptyResponse).status = 405 ∧
    (((NewRouter []).Handle "/items" h ["GET", "POST"]).ServeHTTP literalMatchString traceID
        delItemsReq emptyResponse).getHeader "Allow" = some "GET, POST, HEAD, OPTIONS" ∧
    ((NewRouter []).Handle "/items" h ["GET", "POST"]).routes.map route.method
      = ["GET", "POST", "HEAD"] :=
  ⟨rfl, rfl, rfl⟩

/-- `wrapIter` ignores a middleware appended past the index it starts
from. -/
theorem wrapIter_append (ms : List Middleware) (m : Middleware) :
    ∀ (k : Nat), k ≤ ms.length → ∀ (x : Handler),
      wrapIter (ms ++ [m]) k x = wrapIter ms k x := by
  intro k
  induction k with
  | zero => intro _ x; rfl
  | succ n ih =>
    intro hk x
    have hn : n < ms.length := hk
    simp only [wrapIter]
    rw [List.getD_append _ _ _ _ hn]
    exact ih (Nat.le_of_lt hn) _

/-- C9: `wrap` folds the declared middleware sequence right-to-left, so
`wrap h = m1 (m2 (… (mn h)))` — the first-declared middleware is the
outermost wrapper. -/
theorem C9_wrap_foldr (router : Router) (h : Handler) :
    router.wrap h = router.middlewares.foldr (fun m acc => m acc) h := by
  suffices H : ∀ (ms : List Middleware) (x : Handler),
      wrapIter ms ms.length x = ms.foldr (fun m acc => m acc) x by
    exact H router.middlewares h
  intro ms
  induction ms using List.reverseRecOn with
  | nil => intro x; rfl
  | append_singleton ms m ih =>
    intro x
    have hlen : (ms ++ [m]).length = ms.length + 1 := by simp
    rw [hlen]
    simp only [wrapIter]
    rw [List.getD_append_right _ _ _ _ (le_refl ms.length), Nat.sub_self]
    rw [wrapIter_append ms m ms.length (le_refl ms.length)]
    simp only [List.getD_cons_zero]
    rw [ih (m x)]
    simp [List.foldr_append]
